import Mathlib

/-! Verification of the browser error-debugging server (TypeScript sources) against
its natural-language specification.  The TypeScript source is shallowly
embedded: pure computations become Lean functions, the mutable error buffer of
each browser backend becomes explicit state passing, promise rejections become
`Except`, and the asynchronously-arriving browser events (buffered errors, the
react-probe evaluation result, per-rule DOM interaction outcomes, the wall
clock) are supplied by an explicit environment value.  JavaScript strings are
modelled as `String` (or `List Char` where byte-level reasoning is needed),
JavaScript numbers that are used as indices/counters as `Nat`/`Int`.
-/

/-- Error discriminant from `src/error/types.ts` (`BrowserError.type`). -/
inductive ErrorType
  | console
  | network
  | react
  | ui
deriving DecidableEq

/-- Flattened model of the `BrowserError` union from `src/error/types.ts`.
The TS subtypes (`ConsoleError`, `NetworkError`, `ReactError`, `UIError`)
extend the base interface with extra optional fields; here the union is
flattened into one structure carrying the discriminant plus all subtype
fields as options.  The `args: unknown[]` and `context: Record<string,
unknown>` fields hold values of TS type `unknown` and are not modelled; no
claim depends on them. -/
structure BrowserError where
  type : ErrorType
  message : String
  stack : Option String := none
  source : Option String := none
  line : Option Nat := none
  column : Option Nat := none
  url : Option String := none
  timestamp : Nat
  level : Option String := none
  status : Option Nat := none
  statusText : Option String := none
  method : Option String := none
  requestUrl : Option String := none
  componentStack : Option String := none
  errorBoundary : Option String := none
  element : Option String := none
  action : Option String := none
  expected : Option String := none
  actual : Option String := none
deriving DecidableEq

/-- The `ErrorCollection` type from `src/error/types.ts`. -/
structure ErrorCollection where
  errors : List BrowserError
  hasErrors : Bool
  summary : String
deriving DecidableEq

/-- Rendering of the error discriminant, as produced by string interpolation
of `error.type` in `ErrorDetector.generateSummary`. -/
def errorTypeName : ErrorType → String
  | .console => "console"
  | .network => "network"
  | .react => "react"
  | .ui => "ui"

/-- One step of the `errors.reduce` accumulator in
`ErrorDetector.generateSummary`: `acc[error.type] = (acc[error.type] || 0) + 1`.
A JavaScript object with string keys preserves key insertion order, so the
accumulator is modelled as an association list; an existing key is updated in
place, a new key is appended. -/
def bumpCount (acc : List (ErrorType × Nat)) (t : ErrorType) : List (ErrorType × Nat) :=
  if acc.any (fun p => p.1 == t) then
    acc.map (fun p => if p.1 == t then (p.1, p.2 + 1) else p)
  else
    acc ++ [(t, 1)]

/-- The `byType` object computed by `ErrorDetector.generateSummary`. -/
def countByType (errors : List BrowserError) : List (ErrorType × Nat) :=
  errors.foldl (fun acc e => bumpCount acc e.type) []

/-- The `summaryParts` array of `ErrorDetector.generateSummary`:
`Object.entries(byType).map(([type, count]) => ...)`. -/
def summaryParts (byType : List (ErrorType × Nat)) : List String :=
  byType.map (fun p =>
    toString p.2 ++ " " ++ errorTypeName p.1 ++ " error" ++ (if p.2 > 1 then "s" else ""))

/-- The private `ErrorDetector.generateSummary` method (src/error/detector.ts). -/
def ErrorDetector.generateSummary (errors : List BrowserError) : String :=
  if errors.length = 0 then
    "No errors detected"
  else
    "Found " ++ toString errors.length ++ " error(s): " ++
      String.intercalate ", " (summaryParts (countByType errors))

/-- Mutable state of `CDPController` (src/browser/cdp.ts): the `errors` array
into which the four CDP event subscriptions push. -/
structure CDPState where
  errors : List BrowserError
deriving DecidableEq

/-- One CDP event subscription firing: `this.errors.push(error)`. -/
def CDPController.pushError (s : CDPState) (e : BrowserError) : CDPState :=
  ⟨s.errors ++ [e]⟩

/-- The method `CDPController.captureErrors`: copies the buffer, resets it to
empty, and returns the copy. -/
def CDPController.captureErrors (s : CDPState) : List BrowserError × CDPState :=
  (s.errors, ⟨[]⟩)

/-- Buffer clearing performed at the start of `CDPController.navigate`
(`this.errors = []`). -/
def CDPController.clearOnNavigate (_s : CDPState) : CDPState :=
  ⟨[]⟩

/-- Mutable state of `PlaywrightController` (src/browser/playwright.ts): the
`errors` array plus whether `this.page` is non-null. -/
structure PlaywrightState where
  pageInitialized : Bool
  errors : List BrowserError
deriving DecidableEq

/-- A Playwright page event handler firing.  The handlers are only installed
on a live page, so a push can only happen while `page` is non-null. -/
def PlaywrightController.pushError (s : PlaywrightState) (e : BrowserError) : PlaywrightState :=
  if s.pageInitialized then { s with errors := s.errors ++ [e] } else s

/-- The method `PlaywrightController.captureErrors`: if `this.page` is null it
returns `[]` without touching the buffer; otherwise it copies the buffer,
resets it to empty, and returns the copy. -/
def PlaywrightController.captureErrors (s : PlaywrightState) :
    List BrowserError × PlaywrightState :=
  if s.pageInitialized then (s.errors, { s with errors := [] }) else ([], s)

/-- The method `PlaywrightController.close`: releases context/browser and sets
`this.page = null`; the `errors` array is not cleared. -/
def PlaywrightController.close (s : PlaywrightState) : PlaywrightState :=
  { s with pageInitialized := false }

/-- Launch state of `PlaywrightController.launch`: fresh page, empty buffer. -/
def PlaywrightController.launch : PlaywrightState :=
  ⟨true, []⟩

/-- The backend chosen once by `BrowserControllerImpl.initialize`
(src/browser/controller.ts): either the CDP client or the Playwright fallback,
together with its buffer state. -/
inductive BrowserBackend
  | cdp (s : CDPState)
  | playwright (s : PlaywrightState)
deriving DecidableEq

/-- Dispatch of `BrowserControllerImpl.captureErrors` to the active backend. -/
def BrowserControllerImpl.captureErrors (b : BrowserBackend) :
    List BrowserError × BrowserBackend :=
  match b with
  | .cdp s =>
    let (es, s') := CDPController.captureErrors s
    (es, .cdp s')
  | .playwright s =>
    let (es, s') := PlaywrightController.captureErrors s
    (es, .playwright s')

/-- The method `ErrorDetector.detectConsoleErrors` (src/error/detector.ts):
drains the backend buffer and keeps only the console-tagged errors. -/
def ErrorDetector.detectConsoleErrors (b : BrowserBackend) :
    List BrowserError × BrowserBackend :=
  let (errors, b') := BrowserControllerImpl.captureErrors b
  (errors.filter (fun e => e.type == .console), b')

/-- The method `ErrorDetector.detectNetworkErrors`: drains the backend buffer
and keeps only the network-tagged errors. -/
def ErrorDetector.detectNetworkErrors (b : BrowserBackend) :
    List BrowserError × BrowserBackend :=
  let (errors, b') := BrowserControllerImpl.captureErrors b
  (errors.filter (fun e => e.type == .network), b')

/-- The method `ErrorDetector.detectReactErrors`: evaluates the react probe
script in the page and returns its result, or `[]` if the evaluation throws
(the body is wrapped in try/catch).  The probe result is supplied by the
environment as `reactProbe`; it does not touch the error buffer. -/
def ErrorDetector.detectReactErrors (reactProbe : Except String (List BrowserError))
    (b : BrowserBackend) : List BrowserError × BrowserBackend :=
  match reactProbe with
  | .ok es => (es, b)
  | .error _ => ([], b)

/-- The method `ErrorDetector.detectUIErrors`: drains the backend buffer and
keeps only the ui-tagged errors. -/
def ErrorDetector.detectUIErrors (b : BrowserBackend) :
    List BrowserError × BrowserBackend :=
  let (errors, b') := BrowserControllerImpl.captureErrors b
  (errors.filter (fun e => e.type == .ui), b')

/-- The method `ErrorDetector.detectAllErrors` (src/error/detector.ts): runs
the four per-category detections in source order (console, network, react, ui)
— each of console/network/ui performing its own buffer drain — concatenates
the four lists and builds the `ErrorCollection` literal
`{ errors, hasErrors: allErrors.length > 0, summary: generateSummary(...) }`. -/
def ErrorDetector.detectAllErrors (reactProbe : Except String (List BrowserError))
    (b : BrowserBackend) : ErrorCollection × BrowserBackend :=
  let (consoleErrors, b1) := ErrorDetector.detectConsoleErrors b
  let (networkErrors, b2) := ErrorDetector.detectNetworkErrors b1
  let (reactErrors, b3) := ErrorDetector.detectReactErrors reactProbe b2
  let (uiErrors, b4) := ErrorDetector.detectUIErrors b3
  let allErrors := consoleErrors ++ networkErrors ++ reactErrors ++ uiErrors
  ({ errors := allErrors
     hasErrors := allErrors.length > 0
     summary := ErrorDetector.generateSummary allErrors }, b4)

/-- Sample buffered network error used in concrete evaluations. -/
def sampleNetworkError : BrowserError :=
  { type := .network
    message := "Network error: 500 Internal Server Error"
    status := some 500
    timestamp := 0 }

example :
    (ErrorDetector.detectAllErrors (.ok []) (.cdp ⟨[sampleNetworkError]⟩)).1.errors = [] := by
  decide

/-- JavaScript truthiness of an optional string (`undefined` and the empty
string are falsy), used for `feature.url`, the `value` default, etc. -/
def jsOrStr (o : Option String) (d : String) : String :=
  match o with
  | some s => if s ≠ "" then s else d
  | none => d

/-- JavaScript truthiness of an optional number (`undefined` and `0` are
falsy): `o || d`. -/
def jsOrNat (o : Option Nat) (d : Nat) : Nat :=
  match o with
  | some n => if n ≠ 0 then n else d
  | none => d

/-- Truthiness test `if (x)` on an optional string. -/
def jsTruthyStr (o : Option String) : Bool :=
  match o with
  | some s => s ≠ ""
  | none => false

/-- Truthiness test `if (x)` on an optional number. -/
def jsTruthyNat (o : Option Nat) : Bool :=
  match o with
  | some n => n ≠ 0
  | none => false

/-- The `action` field of `UIValidationRule` (src/test/validator.ts):
`click`, `type`, `wait` or `check`. -/
inductive UIAction
  | click
  | type
  | wait
  | check
deriving DecidableEq

/-- Rendering of a `UIAction` back to its source string (used when a UI error
records `action: rule.action`). -/
def UIAction.name : UIAction → String
  | .click => "click"
  | .type => "type"
  | .wait => "wait"
  | .check => "check"

/-- The `UIValidationRule` interface from src/test/validator.ts. -/
structure UIValidationRule where
  selector : String
  action : Option UIAction := none
  value : Option String := none
  expected : Option String := none
  timeout : Option Nat := none
deriving DecidableEq

/-- The private `UIValidator.getActionScript` method: the JavaScript fragment
spliced into the interaction script for the rule's action.  The rule's `value`
and `timeout` are interpolated verbatim (defaulted to the empty string and
to 1000); comparing `rule.expected` against the word checked interpolates as
`true`/`false`. -/
def UIValidator.getActionScript (rule : UIValidationRule) : String :=
  match rule.action with
  | some .click => "element.click();"
  | some .type =>
    "element.value = \x27" ++ jsOrStr rule.value "" ++
      "\x27; element.dispatchEvent(new Event(\x27input\x27, \x7b bubbles: true \x7d));"
  | some .check =>
    "if (element.checked !== " ++
      (if rule.expected == some "checked" then "true" else "false") ++
      ") \x7b throw new Error(\x27Checkbox state mismatch\x27); \x7d"
  | some .wait => "setTimeout(() => \x7b\x7d, " ++ toString (jsOrNat rule.timeout 1000) ++ ");"
  | none => ""

/-- Fixed text of the interaction script up to the point where
`rule.selector` is spliced in (the `document.querySelector` call of
`UIValidator.validateInteraction`; template-literal whitespace condensed). -/
def scriptHead : String :=
  "(function() \x7b const element = document.querySelector(\x27"

/-- Fixed text of the interaction script between the spliced selector and the
spliced action fragment. -/
def scriptAfterSelector : String :=
  "\x27); if (!element) \x7b return \x7b success: false, error: \x27Element not found\x27 \x7d; \x7d try \x7b "

/-- Fixed text of the interaction script after the spliced action fragment. -/
def scriptTail : String :=
  " return \x7b success: true \x7d; \x7d catch (error) \x7b return \x7b success: false, error: error.message \x7d; \x7d \x7d)()"

/-- The script string `UIValidator.validateInteraction` passes to
`browser.evaluate`: the fixed template with `rule.selector` and the action
fragment spliced in by string interpolation, exactly as in the source. -/
def UIValidator.interactionScript (rule : UIValidationRule) : String :=
  scriptHead ++ rule.selector ++ scriptAfterSelector ++
    UIValidator.getActionScript rule ++ scriptTail

/-- Fixed text preceding the spliced `rule.value` in the interaction script of
a `type`-action rule (depends on the rule's selector, which is spliced in
earlier in the same script). -/
def valueMarkerFor (selector : String) : String :=
  scriptHead ++ selector ++ scriptAfterSelector ++ "element.value = \x27"

/-- The single-quote character terminating a JavaScript string literal. -/
def squote : Char := Char.ofNat 39

/-- The backslash character (JavaScript escape introducer). -/
def backslashChar : Char := Char.ofNat 92

/-- Reading a single-quoted JavaScript string literal out of a generated
script: if the script starts with the fixed text `pre` (which ends just after
the literal's opening quote), return the literal's characters, i.e. everything
up to the next single quote.  This models where a JavaScript lexer (on
escape-free input) ends the string literal the caller's data was spliced
into. -/
def literalAt (pre script : List Char) : Option (List Char) :=
  if script.take pre.length = pre then
    some ((script.drop pre.length).takeWhile (fun c => c != squote))
  else none

/-- Property of a string containing no single quote. -/
def noSquote (s : String) : Prop := squote ∉ s.data

/-- Property of a string containing no backslash. -/
def noBackslash (s : String) : Prop := backslashChar ∉ s.data

instance (s : String) : Decidable (noSquote s) := by
  unfold noSquote
  infer_instance

instance (s : String) : Decidable (noBackslash s) := by
  unfold noBackslash
  infer_instance

/-- Outcome of the `browser.evaluate` call inside
`UIValidator.validateInteraction`: either the script's `{ success, error }`
return value, or a rejected promise. -/
inductive EvalOutcome
  | ok (success : Bool) (errMsg : Option String)
  | thrown (msg : String)

/-- Return type of `UIValidator.validateInteraction`:
`{ success: boolean; error?: UIError }`. -/
structure InteractionResult where
  success : Bool
  error : Option BrowserError
deriving DecidableEq

/-- The method `UIValidator.validateInteraction` (src/test/validator.ts):
reports a UI error when the page is unavailable, when the evaluated script
reports failure, or when the evaluation itself throws (caught by the
surrounding try/catch) — it never raises.  `outcome` is the environment's
result for the `evaluate` call; `now` models `Date.now()`. -/
def UIValidator.validateInteraction (pageAvailable : Bool) (outcome : EvalOutcome)
    (rule : UIValidationRule) (now : Nat) : InteractionResult :=
  if !pageAvailable then
    { success := false
      error := some { type := .ui
                      message := "Page not available for interaction"
                      element := some rule.selector
                      action := rule.action.map UIAction.name
                      timestamp := now } }
  else
    match outcome with
    | .thrown msg =>
      { success := false
        error := some { type := .ui
                        message := msg
                        element := some rule.selector
                        action := rule.action.map UIAction.name
                        timestamp := now } }
    | .ok true _ => { success := true, error := none }
    | .ok false errMsg =>
      { success := false
        error := some { type := .ui
                        message := jsOrStr errMsg "Interaction failed"
                        element := some rule.selector
                        action := rule.action.map UIAction.name
                        timestamp := now } }

/-- Loop body of `UIValidator.validateMultiple`: run the rules in order
(the `i`-th rule's `evaluate` outcome is `evalOutcomes i`), collecting the
error of every failed interaction (`if (!result.success && result.error)
errors.push(result.error)`); failures never stop the loop. -/
def UIValidator.validateMultipleGo (pageAvailable : Bool) (evalOutcomes : Nat → EvalOutcome)
    (now : Nat) (i : Nat) : List UIValidationRule → List BrowserError
  | [] => []
  | rule :: rest =>
    let r := UIValidator.validateInteraction pageAvailable (evalOutcomes i) rule now
    (match r.success, r.error with
     | false, some e => [e]
     | _, _ => []) ++
      UIValidator.validateMultipleGo pageAvailable evalOutcomes now (i + 1) rest

/-- The method `UIValidator.validateMultiple`: result is
`{ success: errors.length === 0, errors }`. -/
def UIValidator.validateMultiple (pageAvailable : Bool) (evalOutcomes : Nat → EvalOutcome)
    (now : Nat) (rules : List UIValidationRule) : Bool × List BrowserError :=
  let errors := UIValidator.validateMultipleGo pageAvailable evalOutcomes now 0 rules
  (errors.length == 0, errors)

/-- The `FeatureTest` interface from src/test/runner.ts. -/
structure FeatureTest where
  name : String
  url : Option String := none
  uiRules : Option (List UIValidationRule) := none
  waitTime : Option Nat := none
deriving DecidableEq

/-- The `TestResult` interface from src/test/runner.ts. -/
structure TestResult where
  feature : String
  success : Bool
  errors : ErrorCollection
  duration : Nat
deriving DecidableEq

/-- Environment for one `TestRunner.testFeature` call, supplying everything
the live browser session decides: the outcome of awaiting `navigate` and the
`setTimeout` pause (a rejected promise is `Except.error`), the backend buffer
state at the moment error detection runs, the react-probe evaluation result,
whether `getPage()` is non-null, the `evaluate` outcome for each UI rule (by
call index), the `Date.now()` value used for synthetic timestamps, and the
measured wall-clock duration. -/
structure TestEnv where
  navigateOutcome : Except String Unit
  waitOutcome : Except String Unit
  browser : BrowserBackend
  reactProbe : Except String (List BrowserError)
  pageAvailable : Bool
  interactionEval : Nat → EvalOutcome
  now : Nat
  duration : Nat

/-- Result built by the catch branch of `TestRunner.testFeature`: a failed
`TestResult` whose collection holds the single synthetic console-type error. -/
def TestRunner.syntheticFailure (feature : FeatureTest) (msg : String)
    (now duration : Nat) : TestResult :=
  { feature := feature.name
    success := false
    errors := { errors := [{ type := .console, message := msg, timestamp := now }]
                hasErrors := true
                summary := "Test execution failed: " ++ msg }
    duration := duration }

/-- The guard `feature.uiRules && feature.uiRules.length > 0` in
`TestRunner.testFeature`. -/
def TestRunner.shouldRunRules (feature : FeatureTest) : Bool :=
  match feature.uiRules with
  | some rules => rules.length > 0
  | none => false

/-- Exception observed by the try/catch of `TestRunner.testFeature`, if any:
a rejection of the awaited `navigate` (only performed when `feature.url` is
truthy) or of the awaited pause (only performed when `feature.waitTime` is
truthy).  The remaining steps — `detectAllErrors` and `validateMultiple` —
never reject: their own bodies catch everything. -/
def TestRunner.thrownDuring (env : TestEnv) (feature : FeatureTest) : Option String :=
  match (if jsTruthyStr feature.url then env.navigateOutcome else .ok ()) with
  | .error m => some m
  | .ok _ =>
    match (if jsTruthyNat feature.waitTime then env.waitOutcome else .ok ()) with
    | .error m => some m
    | .ok _ => none

/-- The method `TestRunner.testFeature` (src/test/runner.ts): navigate if a
URL is present, pause if a wait time is present, detect all errors, run the UI
rules if present (appending their errors into the same collection, forcing
`hasErrors` and extending the summary), and compute
`success = !errors.hasErrors && uiValidationSuccess`; any exception in this
sequence is converted by the catch branch into `syntheticFailure`.  Besides
the `TestResult`, the function also returns the value the collection had when
`detectAllErrors` constructed it (`none` when the run threw earlier), so that
the in-place mutation performed by the source on that very object can be
stated. -/
def TestRunner.testFeature (env : TestEnv) (feature : FeatureTest) :
    TestResult × Option ErrorCollection :=
  match (if jsTruthyStr feature.url then env.navigateOutcome else .ok ()) with
  | .error msg => (TestRunner.syntheticFailure feature msg env.now env.duration, none)
  | .ok _ =>
    match (if jsTruthyNat feature.waitTime then env.waitOutcome else .ok ()) with
    | .error msg => (TestRunner.syntheticFailure feature msg env.now env.duration, none)
    | .ok _ =>
      let errors0 := (ErrorDetector.detectAllErrors env.reactProbe env.browser).1
      if TestRunner.shouldRunRules feature then
        let uiResult :=
          UIValidator.validateMultiple env.pageAvailable env.interactionEval env.now
            (feature.uiRules.getD [])
        let errors1 :=
          if uiResult.1 then errors0
          else
            { errors := errors0.errors ++ uiResult.2
              hasErrors := true
              summary := errors0.summary ++ ". UI validation failed: " ++
                toString uiResult.2.length ++ " error(s)" }
        ({ feature := feature.name
           success := !errors1.hasErrors && uiResult.1
           errors := errors1
           duration := env.duration }, some errors0)
      else
        ({ feature := feature.name
           success := !errors0.hasErrors && true
           errors := errors0
           duration := env.duration }, some errors0)

/-- UI errors collected during a `testFeature` run (empty when the rules are
absent or empty so `validateMultiple` is not called). -/
def TestRunner.uiErrorsOf (env : TestEnv) (feature : FeatureTest) : List BrowserError :=
  if TestRunner.shouldRunRules feature then
    (UIValidator.validateMultiple env.pageAvailable env.interactionEval env.now
      (feature.uiRules.getD [])).2
  else []

/-- Terminal state names of the fix-and-retest loop (src/index.ts,
`handleFixAndRetest`): test passed, the fix generator failed, or the
iteration cap was reached. -/
inductive ReportKind
  | success
  | fixFailed
  | exhausted
deriving DecidableEq

/-- The `iterations` number serialized into the loop's terminal JSON report,
together with which terminal branch produced it. -/
structure LoopReport where
  kind : ReportKind
  iterations : Nat
deriving DecidableEq

/-- The `while (iteration < maxIterations)` loop of `handleFixAndRetest`:
`testSucceeds n` is whether the n-th `testFeature` call succeeds, and
`fixSucceeds n` whether the n-th `cursorIntegration.fixError` call reports
success.  Returns the terminal report and the number of `testFeature` calls
performed from this point on. -/
def handleFixAndRetestGo (testSucceeds fixSucceeds : Nat → Bool)
    (maxIterations iteration : Nat) : LoopReport × Nat :=
  if iteration < maxIterations then
    let it := iteration + 1
    if testSucceeds it then (⟨.success, it⟩, 1)
    else if fixSucceeds it then
      let (rep, att) := handleFixAndRetestGo testSucceeds fixSucceeds maxIterations it
      (rep, att + 1)
    else (⟨.fixFailed, it⟩, 1)
  else (⟨.exhausted, maxIterations⟩, 0)
termination_by maxIterations - iteration

/-- The tool handler `handleFixAndRetest` (src/index.ts): runs the loop from
`iteration = 0` with the effective iteration cap. -/
def handleFixAndRetest (testSucceeds fixSucceeds : Nat → Bool)
    (maxIterations : Nat) : LoopReport × Nat :=
  handleFixAndRetestGo testSucceeds fixSucceeds maxIterations 0

/-- The cap computation
`args.maxIterations || this.config.test.maxRetryAttempts`: an absent or zero
(falsy) argument falls back to the configured default
(`MAX_RETRY_ATTEMPTS`, itself an arbitrary environment value). -/
def effectiveMaxIterations (argsMax : Option Nat) (configMax : Nat) : Nat :=
  match argsMax with
  | some n => if n ≠ 0 then n else configMax
  | none => configMax

/-- One entry of `CodeFix.changes` (src/gemini/client.ts): a 1-based line
number with expected old text and replacement text.  Lines are modelled as
character lists so that file content can be compared byte-for-byte. -/
structure FixChange where
  line : Int
  oldCode : List Char
  newCode : List Char
deriving DecidableEq

/-- The `CodeFix` interface from src/gemini/client.ts. -/
structure CodeFix where
  file : String
  changes : List FixChange
  explanation : String
deriving DecidableEq

/-- JavaScript `String.prototype.trim`: strip whitespace from both ends. -/
def jsTrim (s : List Char) : List Char :=
  ((s.dropWhile Char.isWhitespace).reverse.dropWhile Char.isWhitespace).reverse

/-- One pass of the `for (const change of ...)` loop in
`GeminiClient.applyFix`: if `change.line - 1` is a valid index and the current
line's trimmed text equals the trimmed old text, overwrite that line with the
new text; otherwise (mismatch warns and) the line array is left unchanged. -/
def GeminiClient.applyChange (lines : List (List Char)) (change : FixChange) :
    List (List Char) :=
  let lineIndex : Int := change.line - 1
  if 0 ≤ lineIndex ∧ lineIndex < (lines.length : Int) then
    let i := lineIndex.toNat
    if jsTrim (lines.getD i []) = jsTrim change.oldCode then lines.set i change.newCode
    else lines
  else lines

/-- The line-processing core of `GeminiClient.applyFix`: the changes, sorted
by line number descending (`changes.sort((a, b) => b.line - a.line)`), are
folded over the file's line array. -/
def GeminiClient.applyFixLines (lines : List (List Char)) (changes : List FixChange) :
    List (List Char) :=
  (changes.mergeSort (fun a b => decide (b.line ≤ a.line))).foldl
    GeminiClient.applyChange lines

/-- File-content level of `GeminiClient.applyFix`: `content.split('\n')`,
apply the changes, `lines.join('\n')`. -/
def GeminiClient.applyFixContent (content : List Char) (changes : List FixChange) :
    List Char :=
  List.intercalate ['\n'] (GeminiClient.applyFixLines (content.splitOn '\n') changes)

/-- The method `GeminiClient.applyFix`: returns `false` when the target file
does not exist; otherwise reads it, applies the changes best-effort, writes
the result and returns `true`.  A rejected read or write is caught and yields
`false` (the second component is the content successfully written, `none` when
nothing was, the on-disk state of a failed write being unspecified). -/
def GeminiClient.applyFix (fileExists : Bool) (readOutcome : Except String (List Char))
    (writeOutcome : Except String Unit) (fix : CodeFix) : Bool × Option (List Char) :=
  if !fileExists then (false, none)
  else
    match readOutcome with
    | .error _ => (false, none)
    | .ok content =>
      let newContent := GeminiClient.applyFixContent content fix.changes
      match writeOutcome with
      | .ok _ => (true, some newContent)
      | .error _ => (false, none)

/-- The `FixResult` interface from src/cursor/integration.ts. -/
structure FixResult where
  success : Bool
  fix : Option CodeFix
  error : Option String
deriving DecidableEq

/-- The method `CursorIntegration.fixError` (src/cursor/integration.ts),
abstracting the Gemini call: `generated` is what `generateFix` returned and
`applied` the result of `applyFix` on a generated fix.  No fix generated
reports failure naming the missing fix; a fix that
could not be applied reports failure naming the failed application;
otherwise success. -/
def CursorIntegration.fixError (generated : Option CodeFix) (applied : CodeFix → Bool) :
    FixResult :=
  match generated with
  | none => { success := false, fix := none, error := some "Could not generate fix for the error" }
  | some fix =>
    if applied fix then { success := true, fix := some fix, error := none }
    else { success := false, fix := some fix, error := some "Failed to apply fix to file" }

/-- Bounds of the fix-and-retest loop, proved by induction on the remaining
fuel `maxIterations - iteration`: the number of test attempts still to be
performed is at most the remaining fuel, and the reported iteration count lies
between `min (iteration + 1) maxIterations` and `maxIterations`. -/
theorem handleFixAndRetestGo_bounds (test fix : Nat → Bool) (maxIterations : Nat) :
    ∀ fuel iteration, maxIterations - iteration = fuel →
      (handleFixAndRetestGo test fix maxIterations iteration).2 ≤ maxIterations - iteration ∧
      (handleFixAndRetestGo test fix maxIterations iteration).1.iterations ≤ maxIterations ∧
      min (iteration + 1) maxIterations ≤
        (handleFixAndRetestGo test fix maxIterations iteration).1.iterations := by
  intro fuel
  induction fuel with
  | zero =>
    intro iteration hfuel
    have hge : maxIterations ≤ iteration := Nat.le_of_sub_eq_zero hfuel
    rw [handleFixAndRetestGo, if_neg (Nat.not_lt_of_le hge)]
    exact ⟨Nat.zero_le _, Nat.le_refl _, Nat.min_le_right _ _⟩
  | succ n ih =>
    intro iteration hfuel
    have hlt : iteration < maxIterations := by omega
    rw [handleFixAndRetestGo]
    simp only [hlt, if_true]
    cases htest : test (iteration + 1) with
    | true =>
      simp only [if_true]
      refine ⟨by omega, by omega, by omega⟩
    | false =>
      simp only [Bool.false_eq_true, if_false]
      cases hfix : fix (iteration + 1) with
      | true =>
        simp only [if_true]
        have ihr := ih (iteration + 1) (by omega)
        refine ⟨by omega, by omega, by omega⟩
      | false =>
        simp only [Bool.false_eq_true, if_false]
        refine ⟨by omega, by omega, by omega⟩

/-- Claim C2: a buffered error of every tag should survive `detectAllErrors`,
but the three per-category detections each drain the whole buffer and keep
only their own tag, so a buffered network error is consumed by the console
detection step and discarded: with the CDP buffer holding exactly one network
error (and an empty react probe), `detectAllErrors` returns an empty
collection and leaves the buffer drained — the error is lost, where the claim
requires it to be returned in the network category. -/
theorem detectAllErrors_drops_buffered_network_error :
    (ErrorDetector.detectAllErrors (.ok []) (.cdp ⟨[sampleNetworkError]⟩)).1.errors = [] ∧
    (ErrorDetector.detectAllErrors (.ok []) (.cdp ⟨[sampleNetworkError]⟩)).1.hasErrors = false ∧
    (ErrorDetector.detectAllErrors (.ok []) (.cdp ⟨[sampleNetworkError]⟩)).2 = .cdp ⟨[]⟩ := by
  decide

/-- Playwright backend state reached by launching, one error handler firing,
then `close()`: the page is gone but the buffer still holds the error. -/
def closedPlaywrightState : PlaywrightState :=
  PlaywrightController.close
    (PlaywrightController.pushError PlaywrightController.launch sampleNetworkError)

/-- Claim C7, counterexample: a reachable Playwright backend state with a
non-empty error buffer (error captured, then `close()`) on which the first of
two successive `captureErrors` calls returns an empty list and does not drain
the buffer — the `if (!this.page) return []` early return skips the drain,
contradicting the claim for every backend state with a non-empty buffer. -/
theorem captureErrors_closed_page_counterexample :
    closedPlaywrightState.errors ≠ [] ∧
    (PlaywrightController.captureErrors closedPlaywrightState).1 = [] ∧
    (PlaywrightController.captureErrors closedPlaywrightState).2 = closedPlaywrightState := by
  decide

/-- Claim C7, amended: for every CDP backend state, and every Playwright
backend state whose page is initialized, with a non-empty error buffer, two
successive `captureErrors` calls return the buffered errors (non-empty) on the
first call and an empty list on the second; each first call resets the buffer
to empty. -/
theorem captureErrors_drains_exactly_once (cs : CDPState) (ps : PlaywrightState)
    (hc : cs.errors ≠ []) (hp : ps.errors ≠ []) (hpage : ps.pageInitialized = true) :
    ((CDPController.captureErrors cs).1 = cs.errors ∧
     (CDPController.captureErrors cs).1 ≠ [] ∧
     (CDPController.captureErrors cs).2.errors = [] ∧
     (CDPController.captureErrors (CDPController.captureErrors cs).2).1 = []) ∧
    ((PlaywrightController.captureErrors ps).1 = ps.errors ∧
     (PlaywrightController.captureErrors ps).1 ≠ [] ∧
     (PlaywrightController.captureErrors ps).2.errors = [] ∧
     (PlaywrightController.captureErrors (PlaywrightController.captureErrors ps).2).1 = []) := by
  constructor
  · exact ⟨rfl, hc, rfl, rfl⟩
  · have h1 : PlaywrightController.captureErrors ps = (ps.errors, { ps with errors := [] }) := by
      simp [PlaywrightController.captureErrors, hpage]
    rw [h1]
    refine ⟨rfl, hp, rfl, ?_⟩
    simp [PlaywrightController.captureErrors, hpage]

/-- Claim C7, witness: the amended drain property evaluated on concrete
one-error buffers for both backends. -/
theorem captureErrors_drains_exactly_once_witness :
    ((⟨[sampleNetworkError]⟩ : CDPState).errors ≠ [] ∧
     (⟨true, [sampleNetworkError]⟩ : PlaywrightState).errors ≠ [] ∧
     (⟨true, [sampleNetworkError]⟩ : PlaywrightState).pageInitialized = true) ∧
    ((CDPController.captureErrors ⟨[sampleNetworkError]⟩).1 = [sampleNetworkError] ∧
      (CDPController.captureErrors ⟨[sampleNetworkError]⟩).1 ≠ [] ∧
      (CDPController.captureErrors ⟨[sampleNetworkError]⟩).2.errors = [] ∧
      (CDPController.captureErrors
        (CDPController.captureErrors ⟨[sampleNetworkError]⟩).2).1 = []) ∧
    ((PlaywrightController.captureErrors ⟨true, [sampleNetworkError]⟩).1 =
        [sampleNetworkError] ∧
      (PlaywrightController.captureErrors ⟨true, [sampleNetworkError]⟩).1 ≠ [] ∧
      (PlaywrightController.captureErrors ⟨true, [sampleNetworkError]⟩).2.errors = [] ∧
      (PlaywrightController.captureErrors
        (PlaywrightController.captureErrors ⟨true, [sampleNetworkError]⟩).2).1 = []) := by
  refine ⟨by decide, ?_⟩
  exact captureErrors_drains_exactly_once ⟨[sampleNetworkError]⟩ ⟨true, [sampleNetworkError]⟩
    (by decide) (by decide) (by decide)

/-- Claim C3, counterexample: with a configured cap of zero (environment
`MAX_RETRY_ATTEMPTS=0` and no argument), the loop performs zero test attempts
and its terminal report is Exhausted with an iteration count of 0, below the
claimed minimum of 1. -/
theorem handleFixAndRetest_zero_cap_counterexample :
    (handleFixAndRetest (fun _ => false) (fun _ => true)
        (effectiveMaxIterations none 0)).1 = ⟨.exhausted, 0⟩ ∧
    (handleFixAndRetest (fun _ => false) (fun _ => true)
        (effectiveMaxIterations none 0)).2 = 0 := by
  have h0 : effectiveMaxIterations none 0 = 0 := rfl
  rw [h0, handleFixAndRetest, handleFixAndRetestGo]
  simp

/-- Claim C3, amended: for every configured `maxIterations ≥ 1`, the loop
performs at most `maxIterations` test attempts, and the iteration count in
every terminal report (Success, FixFailed or Exhausted) is at least 1 and at
most the configured maximum. -/
theorem handleFixAndRetest_bounded (test fix : Nat → Bool) (maxIterations : Nat)
    (h : 1 ≤ maxIterations) :
    (handleFixAndRetest test fix maxIterations).2 ≤ maxIterations ∧
    1 ≤ (handleFixAndRetest test fix maxIterations).1.iterations ∧
    (handleFixAndRetest test fix maxIterations).1.iterations ≤ maxIterations := by
  have hb := handleFixAndRetestGo_bounds test fix maxIterations (maxIterations - 0) 0 rfl
  unfold handleFixAndRetest
  refine ⟨by omega, by omega, by omega⟩

/-- Claim C3, witness: the amended bound evaluated at cap 3 with a run that
keeps failing but whose fixes keep applying (the Exhausted scenario). -/
theorem handleFixAndRetest_bounded_witness :
    (1 ≤ 3) ∧
    ((handleFixAndRetest (fun _ => false) (fun _ => true) 3).2 ≤ 3 ∧
     1 ≤ (handleFixAndRetest (fun _ => false) (fun _ => true) 3).1.iterations ∧
     (handleFixAndRetest (fun _ => false) (fun _ => true) 3).1.iterations ≤ 3) :=
  ⟨by decide, handleFixAndRetest_bounded (fun _ => false) (fun _ => true) 3 (by decide)⟩

/-- Sorting a one-element change list is the identity (the `sort` call in
`applyFix` on a single-replacement fix). -/
theorem mergeSort_singleton_change (c : FixChange) :
    [c].mergeSort (fun a b => decide (b.line ≤ a.line)) = [c] :=
  List.perm_singleton.mp (List.mergeSort_perm [c] _)

/-- Folding changes over a line array that every change skips leaves the
array unchanged. -/
theorem foldl_applyChange_skip (lines : List (List Char)) :
    ∀ cs : List FixChange, (∀ c ∈ cs, GeminiClient.applyChange lines c = lines) →
      cs.foldl GeminiClient.applyChange lines = lines := by
  intro cs
  induction cs with
  | nil => intro _; rfl
  | cons c rest ih =>
    intro h
    have hc : GeminiClient.applyChange lines c = lines := h c (List.mem_cons_self c rest)
    simpa [List.foldl, hc] using ih (fun c' hc' => h c' (List.mem_cons_of_mem c hc'))

/-- A change whose line index is out of range, or whose old text mismatches
the current line (both compared after trimming), leaves the line array
unchanged. -/
theorem applyChange_skip (lines : List (List Char)) (c : FixChange)
    (h : ¬(0 ≤ c.line - 1 ∧ c.line - 1 < (lines.length : Int)) ∨
      jsTrim (lines.getD (c.line - 1).toNat []) ≠ jsTrim c.oldCode) :
    GeminiClient.applyChange lines c = lines := by
  unfold GeminiClient.applyChange
  rcases h with h | h
  · rw [if_neg h]
  · by_cases hin : 0 ≤ c.line - 1 ∧ c.line - 1 < (lines.length : Int)
    · rw [if_pos hin, if_neg h]
    · rw [if_neg hin]

/-- Claim C5, counterexample: the source compares the current line and the
proposed old text after trimming BOTH (`lines[i].trim() === change.oldCode.trim()`).
On a file whose single line is `  const x = null;` and a replacement whose old
text is `const x = null;  ` (trailing blanks), the current line's trimmed text
differs from the proposed old text, so the claim says the replacement is
skipped and the file left unchanged — but the code replaces the line. -/
theorem applyFix_trim_mismatch_counterexample :
    jsTrim "  const x = null;".data ≠ "const x = null;  ".data ∧
    GeminiClient.applyFixContent "  const x = null;".data
        [⟨1, "const x = null;  ".data, "const x = \x7b\x7d;".data⟩] =
      "const x = \x7b\x7d;".data := by
  constructor
  · decide
  · unfold GeminiClient.applyFixContent GeminiClient.applyFixLines
    rw [mergeSort_singleton_change]
    decide

/-- Claim C5, amended: for every file and single line replacement whose line
number is in range, if the current line's trimmed text equals the proposed old
text's trimmed form then that line is replaced with the new text and all other
lines are unchanged; on (trimmed) mismatch the replacement is skipped and the
file is byte-identical to the original. -/
theorem applyFix_single_replacement (content : List Char) (c : FixChange)
    (hin : 0 ≤ c.line - 1 ∧ c.line - 1 < ((content.splitOn '\n').length : Int)) :
    (jsTrim ((content.splitOn '\n').getD (c.line - 1).toNat []) = jsTrim c.oldCode →
      GeminiClient.applyFixContent content [c] =
        List.intercalate ['\n'] ((content.splitOn '\n').set (c.line - 1).toNat c.newCode)) ∧
    (jsTrim ((content.splitOn '\n').getD (c.line - 1).toNat []) ≠ jsTrim c.oldCode →
      GeminiClient.applyFixContent content [c] = content) := by
  unfold GeminiClient.applyFixContent GeminiClient.applyFixLines
  rw [mergeSort_singleton_change]
  constructor
  · intro hmatch
    show List.intercalate ['\n'] (GeminiClient.applyChange (content.splitOn '\n') c) = _
    unfold GeminiClient.applyChange
    rw [if_pos hin, if_pos hmatch]
  · intro hne
    show List.intercalate ['\n'] (GeminiClient.applyChange (content.splitOn '\n') c) = _
    rw [applyChange_skip _ _ (Or.inr hne)]
    exact List.intercalate_splitOn content '\n'

/-- Ten-line file whose line 10 reads `const x = null;` (the spec's fix
application scenario). -/
def fixScenarioContent : List Char :=
  "l1\nl2\nl3\nl4\nl5\nl6\nl7\nl8\nl9\nconst x = null;".data

/-- Claim C5, witness: the amended single-replacement property applied to the
spec's concrete scenario (line 10, matching old text). -/
theorem applyFix_single_replacement_witness :
    (0 ≤ (10 : Int) - 1 ∧ (10 : Int) - 1 < ((fixScenarioContent.splitOn '\n').length : Int)) ∧
    ((jsTrim ((fixScenarioContent.splitOn '\n').getD ((10 : Int) - 1).toNat []) =
        jsTrim "const x = null;".data →
      GeminiClient.applyFixContent fixScenarioContent
          [⟨10, "const x = null;".data, "const x = \x7b\x7d;".data⟩] =
        List.intercalate ['\n']
          ((fixScenarioContent.splitOn '\n').set ((10 : Int) - 1).toNat
            "const x = \x7b\x7d;".data)) ∧
     (jsTrim ((fixScenarioContent.splitOn '\n').getD ((10 : Int) - 1).toNat []) ≠
        jsTrim "const x = null;".data →
      GeminiClient.applyFixContent fixScenarioContent
          [⟨10, "const x = null;".data, "const x = \x7b\x7d;".data⟩] = fixScenarioContent)) :=
  ⟨by decide, applyFix_single_replacement fixScenarioContent
    ⟨10, "const x = null;".data, "const x = \x7b\x7d;".data⟩ (by decide)⟩

/-- Claim C10: a fix record whose proposed replacements all fail to apply
(line out of range, or trimmed old text mismatching the current line) still
makes `applyFix` return true with the file content written back unchanged, and
`fixError` then reports success; and `applyFix` returns false exactly when the
target file does not exist or reading or writing it throws. -/
theorem applyFix_vacuous_success (fix : CodeFix) (content : List Char)
    (h : ∀ c ∈ fix.changes,
        ¬(0 ≤ c.line - 1 ∧ c.line - 1 < ((content.splitOn '\n').length : Int)) ∨
        jsTrim ((content.splitOn '\n').getD (c.line - 1).toNat []) ≠ jsTrim c.oldCode) :
    GeminiClient.applyFix true (.ok content) (.ok ()) fix = (true, some content) ∧
    CursorIntegration.fixError (some fix)
        (fun f => (GeminiClient.applyFix true (.ok content) (.ok ()) f).1) =
      { success := true, fix := some fix, error := none } ∧
    (∀ (fileExists : Bool) (readOutcome : Except String (List Char))
        (writeOutcome : Except String Unit) (f : CodeFix),
      (GeminiClient.applyFix fileExists readOutcome writeOutcome f).1 = true ↔
        fileExists = true ∧ (∃ cont, readOutcome = .ok cont) ∧ writeOutcome = .ok ()) := by
  have hlines : GeminiClient.applyFixContent content fix.changes = content := by
    unfold GeminiClient.applyFixContent GeminiClient.applyFixLines
    rw [foldl_applyChange_skip (content.splitOn '\n') _ ?_]
    · exact List.intercalate_splitOn content '\n'
    · intro c hc
      exact applyChange_skip _ _
        (h c ((List.mergeSort_perm fix.changes _).mem_iff.mp hc))
  refine ⟨?_, ?_, ?_⟩
  · simp [GeminiClient.applyFix, hlines]
  · have happ : (GeminiClient.applyFix true (.ok content) (.ok ()) fix).1 = true := by
      simp [GeminiClient.applyFix]
    simp [CursorIntegration.fixError, happ]
  · intro fileExists readOutcome writeOutcome f
    cases fileExists with
    | false => simp [GeminiClient.applyFix]
    | true =>
      cases readOutcome with
      | error e => simp [GeminiClient.applyFix]
      | ok cont =>
        cases writeOutcome with
        | error e => simp [GeminiClient.applyFix]
        | ok u => simp [GeminiClient.applyFix]

/-- Claim C10, witness: a two-change fix (line 10 out of range, line 1
mismatching) on a one-line file: applyFix reports true, the content is
unchanged, and fixError reports success. -/
theorem applyFix_vacuous_success_witness :
    (∀ c ∈ [(⟨10, "x".data, "y".data⟩ : FixChange), ⟨1, "const y = 1;".data, "z".data⟩],
        ¬(0 ≤ c.line - 1 ∧ c.line - 1 < (("const x = 1;".data.splitOn '\n').length : Int)) ∨
        jsTrim (("const x = 1;".data.splitOn '\n').getD (c.line - 1).toNat []) ≠
          jsTrim c.oldCode) ∧
    (GeminiClient.applyFix true (.ok "const x = 1;".data) (.ok ())
        ⟨"a.ts", [⟨10, "x".data, "y".data⟩, ⟨1, "const y = 1;".data, "z".data⟩], "e"⟩ =
      (true, some "const x = 1;".data) ∧
     CursorIntegration.fixError
        (some ⟨"a.ts", [⟨10, "x".data, "y".data⟩, ⟨1, "const y = 1;".data, "z".data⟩], "e"⟩)
        (fun f => (GeminiClient.applyFix true (.ok "const x = 1;".data) (.ok ()) f).1) =
      { success := true
        fix := some ⟨"a.ts", [⟨10, "x".data, "y".data⟩, ⟨1, "const y = 1;".data, "z".data⟩], "e"⟩
        error := none } ∧
     (∀ (fileExists : Bool) (readOutcome : Except String (List Char))
        (writeOutcome : Except String Unit) (f : CodeFix),
      (GeminiClient.applyFix fileExists readOutcome writeOutcome f).1 = true ↔
        fileExists = true ∧ (∃ cont, readOutcome = .ok cont) ∧ writeOutcome = .ok ())) :=
  ⟨by decide, applyFix_vacuous_success
    ⟨"a.ts", [⟨10, "x".data, "y".data⟩, ⟨1, "const y = 1;".data, "z".data⟩], "e"⟩
    "const x = 1;".data (by decide)⟩

/-- Lists that stop a quote-scan at their head keep stopping it after any
extension. -/
theorem takeWhile_append_stop (xs ys : List Char) (p : Char → Bool)
    (hx : xs.takeWhile p = []) (hne : xs ≠ []) :
    (xs ++ ys).takeWhile p = [] := by
  rw [List.takeWhile_append, hx]
  have hlen : xs.length ≠ 0 := fun h0 => hne (List.length_eq_zero.mp h0)
  rw [if_neg (fun h => hlen (by simpa using h.symm))]

/-- Reading the spliced literal back out of a script of the shape
`pre ++ mid ++ post`, where `mid` is quote-free and `post` begins with the
literal's closing quote, yields exactly `mid`. -/
theorem literalAt_append (pre mid post : List Char)
    (hmid : ∀ c ∈ mid, (c != squote) = true)
    (hpost : post.takeWhile (fun c => c != squote) = []) :
    literalAt pre (pre ++ (mid ++ post)) = some mid := by
  unfold literalAt
  rw [List.take_left, if_pos rfl, List.drop_left, List.takeWhile_append,
    List.takeWhile_eq_self_iff.mpr hmid]
  simp [hpost]

/-- The text following the selector literal in every interaction script stops
a quote-scan at its head (it begins with the literal's closing quote). -/
theorem scriptAfterSelector_stops (rest : String) :
    ((scriptAfterSelector ++ rest).data.takeWhile (fun c => c != squote)) = [] := by
  rw [String.data_append]
  refine takeWhile_append_stop _ _ _ (by decide) (by decide)

/-- Claim C4, counterexample: the selector is spliced verbatim into the
interaction script, so a selector containing a single quote escapes its
string-literal context: for a selector that reads x, then a quote, then a
script payload, the literal that a lexer reads back from the generated script
is just `x` — the rest of the
supplied string has landed outside the literal, in executable script
position.  No neutralization happens. -/
theorem interactionScript_injection_counterexample :
    literalAt scriptHead.data
        (UIValidator.interactionScript { selector := "x\x27); alert(1); (\x27" }).data =
      some "x".data ∧
    "x".data ≠ "x\x27); alert(1); (\x27".data := by
  constructor
  · decide
  · decide

/-- Claim C4, amended: selector and value are embedded verbatim, with no
neutralization, into the script evaluated in the page context; a selector or
value containing no single quote and no backslash stays inside its intended
string-literal context and is read back exactly (so for such strings the
executed behaviour depends only on the literal data), while strings containing
a quote escape the literal (see the counterexample) — neutralization is left
to callers. -/
theorem interactionScript_roundtrip_quote_free (rule : UIValidationRule)
    (hsel : noSquote rule.selector) (_hselb : noBackslash rule.selector) :
    literalAt scriptHead.data (UIValidator.interactionScript rule).data =
      some rule.selector.data ∧
    (∀ v, rule.action = some .type → rule.value = some v → noSquote v → noBackslash v →
      literalAt (valueMarkerFor rule.selector).data
          (UIValidator.interactionScript rule).data = some v.data) := by
  have hmid : ∀ c ∈ rule.selector.data, (c != squote) = true := by
    intro c hc
    exact bne_iff_ne.mpr (fun he => hsel (he ▸ hc))
  constructor
  · have hdata : (UIValidator.interactionScript rule).data =
        scriptHead.data ++ (rule.selector.data ++
          (scriptAfterSelector ++ (UIValidator.getActionScript rule ++ scriptTail)).data) := by
      simp [UIValidator.interactionScript, String.data_append, List.append_assoc]
    rw [hdata]
    refine literalAt_append _ _ _ hmid ?_
    exact scriptAfterSelector_stops (UIValidator.getActionScript rule ++ scriptTail)
  · intro v haction hvalue hv _hvb
    have hvmid : ∀ c ∈ v.data, (c != squote) = true := by
      intro c hc
      exact bne_iff_ne.mpr (fun he => hv (he ▸ hc))
    have hjs : jsOrStr rule.value "" = v := by
      rw [hvalue]
      unfold jsOrStr
      split <;> simp_all
    have hact : UIValidator.getActionScript rule =
        "element.value = \x27" ++ v ++
          "\x27; element.dispatchEvent(new Event(\x27input\x27, \x7b bubbles: true \x7d));" := by
      unfold UIValidator.getActionScript
      rw [haction, hjs]
    have hdata : (UIValidator.interactionScript rule).data =
        (valueMarkerFor rule.selector).data ++ (v.data ++
          ("\x27; element.dispatchEvent(new Event(\x27input\x27, \x7b bubbles: true \x7d));" ++
            scriptTail).data) := by
      simp [UIValidator.interactionScript, valueMarkerFor, hact, String.data_append,
        List.append_assoc]
    rw [hdata]
    refine literalAt_append _ _ _ hvmid ?_
    rw [String.data_append]
    refine takeWhile_append_stop _ _ _ (by decide) (by decide)

/-- Failing interactions always carry an error record: every failure path of
`validateInteraction` constructs one. -/
theorem validateInteraction_failure_has_error (p : Bool) (o : EvalOutcome)
    (rule : UIValidationRule) (now : Nat) :
    (UIValidator.validateInteraction p o rule now).success = false →
      ∃ e, (UIValidator.validateInteraction p o rule now).error = some e := by
  unfold UIValidator.validateInteraction
  cases p with
  | false => intro _; exact ⟨_, rfl⟩
  | true =>
    cases o with
    | thrown m => intro _; exact ⟨_, rfl⟩
    | ok s m =>
      cases s with
      | true => intro h; exact absurd h (by simp)
      | false => intro _; exact ⟨_, rfl⟩

/-- The rule loop of `validateMultiple` collects no error exactly when every
rule's interaction succeeds (the `j`-th rule of the remaining list seeing the
`i + j`-th evaluate outcome). -/
theorem validateMultipleGo_eq_nil_iff (p : Bool) (evals : Nat → EvalOutcome) (now : Nat) :
    ∀ (rules : List UIValidationRule) (i : Nat),
      UIValidator.validateMultipleGo p evals now i rules = [] ↔
        ∀ j rule, rules[j]? = some rule →
          (UIValidator.validateInteraction p (evals (i + j)) rule now).success = true := by
  intro rules
  induction rules with
  | nil =>
    intro i
    simp [UIValidator.validateMultipleGo]
  | cons rule rest ih =>
    intro i
    unfold UIValidator.validateMultipleGo
    constructor
    · intro h j r hjr
      rcases List.append_eq_nil.mp h with ⟨h1, h2⟩
      cases j with
      | zero =>
        simp only [List.getElem?_cons_zero, Option.some_inj] at hjr
        subst hjr
        by_contra hs
        have hs' : (UIValidator.validateInteraction p (evals (i + 0)) rule now).success = false := by
          cases hsv : (UIValidator.validateInteraction p (evals (i + 0)) rule now).success with
          | false => rfl
          | true => exact absurd hsv (by simpa [Nat.add_zero] using hs)
        rcases validateInteraction_failure_has_error p (evals (i + 0)) rule now hs' with ⟨e, he⟩
        rw [Nat.add_zero] at hs' he
        rw [hs', he] at h1
        simp at h1
      | succ j' =>
        simp only [List.getElem?_cons_succ] at hjr
        have := (ih (i + 1)).mp h2 j' r hjr
        have harith : i + 1 + j' = i + (j' + 1) := by omega
        rw [harith] at this
        exact this
    · intro hall
      have h0 := hall 0 rule (by simp)
      rw [Nat.add_zero] at h0
      refine List.append_eq_nil.mpr ⟨?_, ?_⟩
      · rw [h0]
      · refine (ih (i + 1)).mpr ?_
        intro j r hjr
        have := hall (j + 1) r (by simpa using hjr)
        have harith : i + (j + 1) = i + 1 + j := by omega
        rw [harith] at this
        exact this

/-- Every rule in the feature's (possibly absent) `uiRules` passes its
interaction under the given environment: the `i`-th rule's `evaluate` outcome
is `env.interactionEval i` and it reports success. -/
def rulesAllPass (env : TestEnv) (feature : FeatureTest) : Prop :=
  ∀ i rule, (feature.uiRules.getD [])[i]? = some rule →
    (UIValidator.validateInteraction env.pageAvailable (env.interactionEval i)
      rule env.now).success = true

/-- When the `uiRules && uiRules.length > 0` guard fails the rule list
defaults to empty. -/
theorem shouldRunRules_false_rules_nil (feature : FeatureTest)
    (h : TestRunner.shouldRunRules feature = false) : feature.uiRules.getD [] = [] := by
  unfold TestRunner.shouldRunRules at h
  cases hu : feature.uiRules with
  | none => rfl
  | some rules =>
    rw [hu] at h
    simp only [Option.getD_some]
    simp only [decide_eq_false_iff_not, Nat.not_lt, Nat.le_zero] at h
    exact List.length_eq_zero.mp h

/-- Environment of a clean verification pass: empty buffer, empty react
probe, all interactions succeed. -/
def passingEnv : TestEnv :=
  { navigateOutcome := .ok ()
    waitOutcome := .ok ()
    browser := .cdp ⟨[]⟩
    reactProbe := .ok []
    pageAvailable := true
    interactionEval := fun _ => .ok true none
    now := 0
    duration := 5 }

/-- Environment identical to `passingEnv` except that every DOM interaction
reports failure (the script reports the element as not found). -/
def failingRuleEnv : TestEnv :=
  { passingEnv with interactionEval := fun _ => .ok false (some "Element not found") }

/-- The spec's login scenario: three UI rules against `/login`. -/
def loginFeature : FeatureTest :=
  { name := "login"
    url := some "/login"
    uiRules := some
      [⟨"#email", some .type, some "a@b.c", none, none⟩,
       ⟨"#password", some .type, some "pw", none, none⟩,
       ⟨"#login-button", some .click, none, none, none⟩] }

/-- Claim C1: for every environment and feature, the returned `success` flag
is true exactly when the run's resulting ErrorCollection reports no errors and
every rule in the feature's `uiRules` passed its interaction.  (A thrown run
yields a one-error collection and `success = false`; failed UI validation
forces `hasErrors`, keeping the two sides aligned.) -/
theorem testFeature_success_iff (env : TestEnv) (feature : FeatureTest) :
    (TestRunner.testFeature env feature).1.success = true ↔
      ((TestRunner.testFeature env feature).1.errors.hasErrors = false ∧
        rulesAllPass env feature) := by
  have hgo := validateMultipleGo_eq_nil_iff env.pageAvailable env.interactionEval env.now
    (feature.uiRules.getD []) 0
  simp only [Nat.zero_add] at hgo
  unfold TestRunner.testFeature
  split
  · simp [TestRunner.syntheticFailure]
  · split
    · simp [TestRunner.syntheticFailure]
    · cases hrun : TestRunner.shouldRunRules feature with
      | false =>
        have hnil := shouldRunRules_false_rules_nil feature hrun
        simp only [hrun, Bool.false_eq_true, if_false, Bool.and_true, Bool.not_eq_true']
        constructor
        · intro h
          refine ⟨h, ?_⟩
          intro i rule hir
          rw [hnil] at hir
          simp at hir
        · intro h
          exact h.1
      | true =>
        simp only [hrun, if_true, UIValidator.validateMultiple]
        by_cases hL : UIValidator.validateMultipleGo env.pageAvailable env.interactionEval
            env.now 0 (feature.uiRules.getD []) = []
        · have hlen : (UIValidator.validateMultipleGo env.pageAvailable env.interactionEval
              env.now 0 (feature.uiRules.getD [])).length = 0 := by
            rw [hL]; rfl
          have hpass : rulesAllPass env feature := fun i rule hir => hgo.mp hL i rule hir
          simp only [hlen, beq_self_eq_true, if_true, Bool.and_true, Bool.not_eq_true']
          constructor
          · intro h
            exact ⟨by simpa [hlen] using h, hpass⟩
          · intro h
            simpa [hlen] using h.1
        · have hlen : (UIValidator.validateMultipleGo env.pageAvailable env.interactionEval
              env.now 0 (feature.uiRules.getD [])).length ≠ 0 := by
            intro h0
            exact hL (List.length_eq_zero.mp h0)
          have hbeq : ((UIValidator.validateMultipleGo env.pageAvailable env.interactionEval
              env.now 0 (feature.uiRules.getD [])).length == 0) = false := by
            simpa using hlen
          simp [hbeq]

/-- Claim C6: whenever the navigate or wait step of a `testFeature` run throws,
the catch branch returns a failed `TestResult` whose ErrorCollection is
exactly the single synthetic console-type error carrying the exception's
message; `testFeature` itself is a total function (the detection and
validation steps catch their own exceptions internally), so no exception ever
propagates to the caller. -/
theorem testFeature_exception_synthetic (env : TestEnv) (feature : FeatureTest) (msg : String)
    (h : TestRunner.thrownDuring env feature = some msg) :
    (TestRunner.testFeature env feature).1 =
      TestRunner.syntheticFailure feature msg env.now env.duration ∧
    (TestRunner.testFeature env feature).1.errors.errors =
      [{ type := .console, message := msg, timestamp := env.now }] ∧
    (TestRunner.testFeature env feature).1.errors.hasErrors = true ∧
    (TestRunner.testFeature env feature).1.success = false := by
  revert h
  unfold TestRunner.thrownDuring TestRunner.testFeature
  split
  · intro h
    simp only [Option.some_inj] at h
    subst h
    exact ⟨rfl, rfl, rfl, rfl⟩
  · split
    · intro h
      simp only [Option.some_inj] at h
      subst h
      exact ⟨rfl, rfl, rfl, rfl⟩
    · intro h
      exact absurd h (by simp)

/-- Claim C6, witness: a run whose navigation rejects with message `boom`. -/
theorem testFeature_exception_synthetic_witness :
    (TestRunner.thrownDuring { passingEnv with navigateOutcome := .error "boom" } loginFeature =
      some "boom") ∧
    ((TestRunner.testFeature { passingEnv with navigateOutcome := .error "boom" }
        loginFeature).1 =
      TestRunner.syntheticFailure loginFeature "boom"
        ({ passingEnv with navigateOutcome := .error "boom" } : TestEnv).now
        ({ passingEnv with navigateOutcome := .error "boom" } : TestEnv).duration ∧
     (TestRunner.testFeature { passingEnv with navigateOutcome := .error "boom" }
        loginFeature).1.errors.errors =
      [{ type := .console, message := "boom",
         timestamp := ({ passingEnv with navigateOutcome := .error "boom" } : TestEnv).now }] ∧
     (TestRunner.testFeature { passingEnv with navigateOutcome := .error "boom" }
        loginFeature).1.errors.hasErrors = true ∧
     (TestRunner.testFeature { passingEnv with navigateOutcome := .error "boom" }
        loginFeature).1.success = false) :=
  ⟨by decide, testFeature_exception_synthetic
    { passingEnv with navigateOutcome := .error "boom" } loginFeature "boom" (by decide)⟩

/-- Empty collection as constructed by `detectAllErrors` on a clean pass. -/
def emptyCollection : ErrorCollection :=
  { errors := [], hasErrors := false, summary := "No errors detected" }

/-- Claim C9, counterexample: in a pass whose detection finds nothing but
whose single UI rule fails, the collection constructed by `detectAllErrors`
(value `emptyCollection`) differs from the collection in the returned
`TestResult` — the source reached this result by `push`ing into
`errors.errors`, setting `errors.hasErrors = true` and reassigning
`errors.summary` on that very object (src/test/runner.ts), i.e. by mutating
the collection after construction. -/
theorem testFeature_mutation_counterexample :
    (TestRunner.testFeature failingRuleEnv loginFeature).2 = some emptyCollection ∧
    (TestRunner.testFeature failingRuleEnv loginFeature).1.errors ≠ emptyCollection ∧
    (TestRunner.testFeature failingRuleEnv loginFeature).1.errors.hasErrors = true := by
  refine ⟨by decide, by decide, by decide⟩

/-- Claim C9, amended: the collection built by `detectAllErrors` is mutated by
`testFeature` in exactly one situation — when UI validation runs and fails,
the UI errors are appended to its error sequence, `hasErrors` is set to true
and the summary is extended with the UI failure count; otherwise the returned
collection is the constructed one unchanged.  Each verification pass still
builds a fresh collection. -/
theorem testFeature_mutation_exact (env : TestEnv) (feature : FeatureTest)
    (c : ErrorCollection) (h : (TestRunner.testFeature env feature).2 = some c) :
    (TestRunner.uiErrorsOf env feature = [] →
      (TestRunner.testFeature env feature).1.errors = c) ∧
    (TestRunner.uiErrorsOf env feature ≠ [] →
      (TestRunner.testFeature env feature).1.errors.errors =
          c.errors ++ TestRunner.uiErrorsOf env feature ∧
        (TestRunner.testFeature env feature).1.errors.hasErrors = true ∧
        (TestRunner.testFeature env feature).1.errors.summary =
          c.summary ++ ". UI validation failed: " ++
            toString (TestRunner.uiErrorsOf env feature).length ++ " error(s)") := by
  revert h
  unfold TestRunner.testFeature TestRunner.uiErrorsOf
  split
  · intro h
    exact absurd h (by simp)
  · split
    · intro h
      exact absurd h (by simp)
    · cases hrun : TestRunner.shouldRunRules feature with
      | false =>
        intro h
        simp only [hrun, Bool.false_eq_true, if_false, Option.some_inj] at h ⊢
        subst h
        exact ⟨fun _ => rfl, fun hne => absurd rfl hne⟩
      | true =>
        intro h
        simp only [hrun, if_true, Option.some_inj, UIValidator.validateMultiple] at h ⊢
        subst h
        by_cases hL : UIValidator.validateMultipleGo env.pageAvailable env.interactionEval
            env.now 0 (feature.uiRules.getD []) = []
        · have hlen : ((UIValidator.validateMultipleGo env.pageAvailable env.interactionEval
              env.now 0 (feature.uiRules.getD [])).length == 0) = true := by
            rw [hL]; rfl
          simp only [hlen, if_true, hL]
          exact ⟨fun _ => rfl, fun hne => absurd rfl hne⟩
        · have hlen : ((UIValidator.validateMultipleGo env.pageAvailable env.interactionEval
              env.now 0 (feature.uiRules.getD [])).length == 0) = false := by
            simpa using fun h0 => hL (List.length_eq_zero.mp h0)
          simp only [hlen, Bool.false_eq_true, if_false]
          refine ⟨fun heq => absurd heq hL, fun _ => ?_⟩
          simp

/-- Claim C9, witness for the amended statement: the failing-rule login pass,
where the returned collection is the constructed one plus the three appended
UI errors. -/
theorem testFeature_mutation_exact_witness :
    ((TestRunner.testFeature failingRuleEnv loginFeature).2 = some emptyCollection) ∧
    ((TestRunner.uiErrorsOf failingRuleEnv loginFeature = [] →
      (TestRunner.testFeature failingRuleEnv loginFeature).1.errors = emptyCollection) ∧
     (TestRunner.uiErrorsOf failingRuleEnv loginFeature ≠ [] →
      (TestRunner.testFeature failingRuleEnv loginFeature).1.errors.errors =
          emptyCollection.errors ++ TestRunner.uiErrorsOf failingRuleEnv loginFeature ∧
        (TestRunner.testFeature failingRuleEnv loginFeature).1.errors.hasErrors = true ∧
        (TestRunner.testFeature failingRuleEnv loginFeature).1.errors.summary =
          emptyCollection.summary ++ ". UI validation failed: " ++
            toString (TestRunner.uiErrorsOf failingRuleEnv loginFeature).length ++
            " error(s)")) :=
  ⟨by decide, testFeature_mutation_exact failingRuleEnv loginFeature emptyCollection (by decide)⟩

/-- Number of errors of a given type in a list: the per-type count the
summary must report. -/
def typeCount (t : ErrorType) (errors : List BrowserError) : Nat :=
  errors.countP (fun e => e.type == t)

/-- Finding by key commutes with mapping a key-preserving function over an
association list. -/
theorem find?_map_keyPreserving (f : ErrorType × Nat → ErrorType × Nat)
    (hf : ∀ p, (f p).1 = p.1) (acc : List (ErrorType × Nat)) (t : ErrorType) :
    (acc.map f).find? (fun p => p.1 == t) = (acc.find? (fun p => p.1 == t)).map f := by
  induction acc with
  | nil => rfl
  | cons q acc ih =>
    simp only [List.map_cons]
    by_cases hq : q.1 = t
    · rw [List.find?_cons_of_pos _ (by simp [hf, hq]),
        List.find?_cons_of_pos _ (by simp [hq])]
      simp
    · rw [List.find?_cons_of_neg _ (by simp [hf, hq]),
        List.find?_cons_of_neg _ (by simp [hq])]
      exact ih

/-- Invariant of the `reduce` accumulator in `generateSummary`: the
association list holds exactly the types whose running count is positive,
each mapped to that count, with distinct keys. -/
def AccSpec (cnt : ErrorType → Nat) (acc : List (ErrorType × Nat)) : Prop :=
  (∀ t, acc.find? (fun p => p.1 == t) =
    if 0 < cnt t then some (t, cnt t) else none) ∧
  (acc.map Prod.fst).Nodup

/-- The accumulator invariant only depends on the count function pointwise. -/
theorem AccSpec_congr (cnt1 cnt2 : ErrorType → Nat) (acc : List (ErrorType × Nat))
    (h : ∀ t, cnt1 t = cnt2 t) (ha : AccSpec cnt1 acc) : AccSpec cnt2 acc := by
  obtain ⟨h1, h2⟩ := ha
  exact ⟨fun t => by rw [← h t]; exact h1 t, h2⟩

/-- One `reduce` step preserves the accumulator invariant, bumping the count
of the processed error's type. -/
theorem bumpCount_AccSpec (cnt : ErrorType → Nat) (acc : List (ErrorType × Nat))
    (te : ErrorType) (h : AccSpec cnt acc) :
    AccSpec (fun t => cnt t + if te == t then 1 else 0) (bumpCount acc te) := by
  obtain ⟨hfind, hnodup⟩ := h
  unfold bumpCount
  by_cases hany : acc.any (fun p => p.1 == te) = true
  · rw [if_pos hany]
    obtain ⟨q, hqmem, hq⟩ := List.any_eq_true.mp hany
    have hpos : 0 < cnt te := by
      by_contra hneg
      have h0 : acc.find? (fun p => p.1 == te) = none := by
        rw [hfind te, if_neg hneg]
      exact (List.find?_eq_none.mp h0 q hqmem) hq
    constructor
    · intro t
      rw [find?_map_keyPreserving _
        (fun p => by by_cases hp : (p.1 == te) = true <;> simp [hp]) acc t]
      by_cases htt : t = te
      · subst htt
        rw [hfind t, if_pos hpos]
        rw [if_pos (by simp)]
        simp
      · have hte : (te == t) = false := by
          simp only [beq_eq_false_iff_ne, ne_eq]
          exact fun h => htt h.symm
        have hte' : (t == te) = false := by
          simp only [beq_eq_false_iff_ne, ne_eq]
          exact htt
        rw [hfind t]
        by_cases hpt : 0 < cnt t
        · rw [if_pos hpt, if_pos (by simp [hte]; omega)]
          simp [hte', hte, htt]
        · rw [if_neg hpt, if_neg (by simp [hte]; omega)]
          rfl
    · have hkeys : (acc.map (fun p => if p.1 == te then (p.1, p.2 + 1) else p)).map Prod.fst =
          acc.map Prod.fst := by
        rw [List.map_map]
        congr 1
        funext p
        dsimp
        split <;> rfl
      rw [hkeys]
      exact hnodup
  · rw [if_neg hany]
    have hnone : acc.find? (fun p => p.1 == te) = none := by
      rw [List.find?_eq_none]
      intro x hx hpx
      exact hany (List.any_eq_true.mpr ⟨x, hx, hpx⟩)
    have hzero : cnt te = 0 := by
      by_contra hnz
      rw [hfind te, if_pos (Nat.pos_of_ne_zero hnz)] at hnone
      exact Option.some_ne_none _ hnone
    constructor
    · intro t
      rw [List.find?_append]
      by_cases htt : t = te
      · subst htt
        rw [hfind t, if_neg (by omega)]
        have hsing : List.find? (fun p => p.1 == t) [(t, 1)] = some (t, 1) := by
          simp [List.find?]
        simp only [Option.none_or, hsing]
        rw [if_pos (by simp)]
        simp [hzero]
      · have hte : (te == t) = false := by
          simp only [beq_eq_false_iff_ne, ne_eq]
          exact fun h => htt h.symm
        have hsing' : List.find? (fun p => p.1 == t) [(te, 1)] = none := by
          simp [List.find?, hte]
        rw [hsing', Option.or_none, hfind t]
        simp [hte]
    · have hmem : te ∉ acc.map Prod.fst := by
        intro hmem
        obtain ⟨p, hp, hpe⟩ := List.mem_map.mp hmem
        exact hany (List.any_eq_true.mpr ⟨p, hp, by simp [hpe]⟩)
      simp only [List.map_append, List.map_cons, List.map_nil]
      rw [List.nodup_append]
      exact ⟨hnodup, List.nodup_singleton te, by
        intro a ha hb
        simp only [List.mem_singleton] at hb
        subst hb
        exact hmem ha⟩

/-- Folding the `reduce` over an error list preserves the accumulator
invariant, adding each suffix error's contribution to the counts. -/
theorem foldl_bumpCount_AccSpec :
    ∀ (es : List BrowserError) (acc : List (ErrorType × Nat)) (cnt : ErrorType → Nat),
      AccSpec cnt acc →
      AccSpec (fun t => cnt t + typeCount t es)
        (es.foldl (fun a e => bumpCount a e.type) acc) := by
  intro es
  induction es with
  | nil =>
    intro acc cnt h
    exact AccSpec_congr cnt _ acc (fun t => by simp [typeCount]) h
  | cons e es ih =>
    intro acc cnt h
    rw [List.foldl_cons]
    have hstep := bumpCount_AccSpec cnt acc e.type h
    have hrec := ih (bumpCount acc e.type) _ hstep
    refine AccSpec_congr _ _ _ (fun t => ?_) hrec
    cases hpe : (e.type == t)
    · simp [typeCount, List.countP_cons, hpe]
    · simp [typeCount, List.countP_cons, hpe]
      omega

/-- The `byType` object of `generateSummary` maps exactly the types present
in the error list to their counts: lookup of a present type yields its exact
count, lookup of an absent type yields nothing, and no type occurs twice. -/
theorem countByType_spec (es : List BrowserError) :
    (∀ t, (countByType es).find? (fun p => p.1 == t) =
      if 0 < typeCount t es then some (t, typeCount t es) else none) ∧
    ((countByType es).map Prod.fst).Nodup := by
  have h0 : AccSpec (fun _ => 0) [] := ⟨fun t => by simp, by simp⟩
  have hf := foldl_bumpCount_AccSpec es [] (fun _ => 0) h0
  exact AccSpec_congr _ _ _ (fun t => by simp) hf

/-- Claim C8: for every ErrorCollection constructed by `detectAllErrors`,
`hasErrors` is true exactly when the error sequence is non-empty, and the
summary renders the `byType` counts, which map exactly the types present in
the sequence to their correct per-type counts (each present type mentioned
once via its `summaryParts` entry, absent types not mentioned); an empty
sequence yields the fixed `No errors detected` summary. -/
theorem detectAllErrors_hasErrors_summary (reactProbe : Except String (List BrowserError))
    (b : BrowserBackend) :
    ((ErrorDetector.detectAllErrors reactProbe b).1.hasErrors = true ↔
      (ErrorDetector.detectAllErrors reactProbe b).1.errors ≠ []) ∧
    ((ErrorDetector.detectAllErrors reactProbe b).1.errors = [] →
      (ErrorDetector.detectAllErrors reactProbe b).1.summary = "No errors detected") ∧
    ((ErrorDetector.detectAllErrors reactProbe b).1.errors ≠ [] →
      (ErrorDetector.detectAllErrors reactProbe b).1.summary =
        "Found " ++ toString (ErrorDetector.detectAllErrors reactProbe b).1.errors.length ++
          " error(s): " ++ String.intercalate ", " (summaryParts
            (countByType (ErrorDetector.detectAllErrors reactProbe b).1.errors))) ∧
    (∀ t, (countByType (ErrorDetector.detectAllErrors reactProbe b).1.errors).find?
        (fun p => p.1 == t) =
      if 0 < typeCount t (ErrorDetector.detectAllErrors reactProbe b).1.errors then
        some (t, typeCount t (ErrorDetector.detectAllErrors reactProbe b).1.errors)
      else none) ∧
    ((countByType (ErrorDetector.detectAllErrors reactProbe b).1.errors).map
      Prod.fst).Nodup := by
  have hsum : (ErrorDetector.detectAllErrors reactProbe b).1.summary =
      ErrorDetector.generateSummary (ErrorDetector.detectAllErrors reactProbe b).1.errors := rfl
  have hhe : (ErrorDetector.detectAllErrors reactProbe b).1.hasErrors =
      decide ((ErrorDetector.detectAllErrors reactProbe b).1.errors.length > 0) := rfl
  obtain ⟨hfind, hnodup⟩ :=
    countByType_spec (ErrorDetector.detectAllErrors reactProbe b).1.errors
  refine ⟨?_, ?_, ?_, hfind, hnodup⟩
  · rw [hhe]
    simp [List.length_pos]
  · intro hE
    rw [hsum, hE]
    rfl
  · intro hE
    rw [hsum]
    unfold ErrorDetector.generateSummary
    rw [if_neg (fun h0 => hE (List.length_eq_zero.mp h0))]

/-- Claim C4, witness: the quote-free round-trip evaluated on the concrete
rule typing `user@x.io` into the selector `#email`. -/
theorem interactionScript_roundtrip_quote_free_witness :
    (noSquote "#email" ∧ noBackslash "#email") ∧
    (literalAt scriptHead.data
        (UIValidator.interactionScript
          { selector := "#email", action := some .type, value := some "user@x.io" }).data =
      some "#email".data ∧
    (∀ v, (some UIAction.type : Option UIAction) = some .type →
        (some "user@x.io" : Option String) = some v → noSquote v → noBackslash v →
      literalAt (valueMarkerFor "#email").data
          (UIValidator.interactionScript
            { selector := "#email", action := some .type, value := some "user@x.io" }).data =
        some v.data)) :=
  ⟨⟨by decide, by decide⟩,
    interactionScript_roundtrip_quote_free
      { selector := "#email", action := some .type, value := some "user@x.io" }
      (by decide) (by decide)⟩
